import Mathlib

/-!
# Verification of the ResourceCreator reconciliation engine

Shallow embedding of `Assignment-3/creator`:
* `api/v1/resourcecreator_types.go` — the parent record's API types;
* `internal/controller/resourcecreator_controller.go` — `Reconcile` and the
  `dynamicHandler` event-routing function from `SetupWithManager`.

The Kubernetes client is modelled as an association-list store of child
objects keyed by (group, version, kind, namespace, name), plus an
environment that can inject the fetch/create/update errors the controller
checks for.  `Reconcile` is modelled as a pure function from (environment,
request, store) to (returned error, final store, operation trace); the trace
records every mutating client call the controller issues.
-/

namespace Creator

/-- JSON values, the model of Go's `map[string]interface{}` / `encoding/json`
data.  Objects are association lists; Go JSON numbers are modelled as `Int`
(the payloads in this development only use integers). -/
inductive Json where
  | null
  | bool (b : Bool)
  | num (n : Int)
  | str (s : String)
  | arr (xs : List Json)
  | obj (fields : List (String × Json))

/-- The fields of a JSON object. -/
abbrev JsonObj := List (String × Json)

/-- Lookup of a key in a JSON object (Go map indexing `m[field]`). -/
def objLookup : JsonObj → String → Option Json
  | [], _ => none
  | (k, v) :: rest, key => if k = key then some v else objLookup rest key

/-- Go map assignment `m[field] = value`: replace the binding if the key is
present, otherwise add it. -/
def objSet : JsonObj → String → Json → JsonObj
  | [], key, v => [(key, v)]
  | (k, w) :: rest, key, v =>
      if k = key then (key, v) :: rest else (k, w) :: objSet rest key v

/-- Go map deletion `delete(m, field)`. -/
def objRemove : JsonObj → String → JsonObj
  | [], _ => []
  | (k, w) :: rest, key => if k = key then rest else (k, w) :: objRemove rest key

/-- An owner reference (`metav1.OwnerReference`).  The `Controller` and
`BlockOwnerDeletion` fields are `*bool` in Go; a nil pointer behaves like
`false` everywhere this code reads them, so they are modelled as `Bool`. -/
structure OwnerReference where
  apiVersion : String
  kind : String
  name : String
  uid : String
  controller : Bool
  blockOwnerDeletion : Bool
deriving DecidableEq

/-- Serialization of an owner reference into the untyped object map, as
`Unstructured.SetOwnerReferences` does via `runtime.DefaultUnstructuredConverter`. -/
def encodeOwnerReference (r : OwnerReference) : Json :=
  .obj [("apiVersion", .str r.apiVersion), ("kind", .str r.kind),
        ("name", .str r.name), ("uid", .str r.uid),
        ("controller", .bool r.controller),
        ("blockOwnerDeletion", .bool r.blockOwnerDeletion)]

/-- Result of `schema.GroupVersion.String()`: `group/version`, or just `version` for the
core (empty) group. -/
def apiVersionOf (group version : String) : String :=
  if group = "" then version else group ++ "/" ++ version

/-- Model of `unstructured.Unstructured`: a Kubernetes object represented as one untyped
map.  GVK, metadata and spec all live in the same map — the representation
fact the controller's comment block (lines 80–86) is about. -/
structure Unstructured where
  content : JsonObj

namespace Unstructured

/-- Model of `SetUnstructuredContent`: replaces the whole underlying map. -/
def setUnstructuredContent (_ : Unstructured) (m : JsonObj) : Unstructured :=
  ⟨m⟩

/-- Model of `SetNestedField(u.Object, v, "metadata", field)`: creates the `metadata`
map when absent; silently a no-op when `metadata` exists but is not a map. -/
def setMetaField (u : Unstructured) (field : String) (v : Json) : Unstructured :=
  match objLookup u.content "metadata" with
  | some (.obj m) => ⟨objSet u.content "metadata" (.obj (objSet m field v))⟩
  | some _ => u
  | none => ⟨objSet u.content "metadata" (.obj [(field, v)])⟩

/-- Model of `RemoveNestedField(u.Object, "metadata", field)`. -/
def removeMetaField (u : Unstructured) (field : String) : Unstructured :=
  match objLookup u.content "metadata" with
  | some (.obj m) => ⟨objSet u.content "metadata" (.obj (objRemove m field))⟩
  | _ => u

/-- Model of `SetGroupVersionKind`: sets the `apiVersion` and `kind` keys of the map. -/
def setGroupVersionKind (u : Unstructured) (group version kind : String) : Unstructured :=
  ⟨objSet (objSet u.content "apiVersion" (.str (apiVersionOf group version))) "kind" (.str kind)⟩

/-- Model of `SetName`: sets `metadata.name`. -/
def setName (u : Unstructured) (n : String) : Unstructured :=
  u.setMetaField "name" (.str n)

/-- Model of `SetNamespace`: sets `metadata.namespace`. -/
def setNamespace (u : Unstructured) (ns : String) : Unstructured :=
  u.setMetaField "namespace" (.str ns)

/-- Model of `SetOwnerReferences`: serializes the references into
`metadata.ownerReferences`. -/
def setOwnerReferences (u : Unstructured) (refs : List OwnerReference) : Unstructured :=
  u.setMetaField "ownerReferences" (.arr (refs.map encodeOwnerReference))

/-- Model of `SetResourceVersion`: the empty string removes `metadata.resourceVersion`,
anything else sets it. -/
def setResourceVersion (u : Unstructured) (v : String) : Unstructured :=
  if v = "" then u.removeMetaField "resourceVersion"
  else u.setMetaField "resourceVersion" (.str v)

/-- Read a `metadata` field of the untyped map. -/
def metaField (u : Unstructured) (field : String) : Option Json :=
  match objLookup u.content "metadata" with
  | some (.obj m) => objLookup m field
  | _ => none

/-- Model of `GetAPIVersion`. -/
def getApiVersion (u : Unstructured) : Option Json :=
  objLookup u.content "apiVersion"

/-- Model of `GetKind`. -/
def getKind (u : Unstructured) : Option Json :=
  objLookup u.content "kind"

/-- Model of `GetName`. -/
def getName (u : Unstructured) : Option Json :=
  u.metaField "name"

/-- Model of `GetNamespace`. -/
def getNamespace (u : Unstructured) : Option Json :=
  u.metaField "namespace"

end Unstructured

/-- Model of the `apiextensionsv1.JSON` payload: raw bytes that either parse as a JSON document or
do not. -/
inductive Raw where
  | json (j : Json)
  | malformed (bytes : String)

/-- Model of `json.Unmarshal(raw, &m)` for `m := map[string]any{}`: succeeds exactly on
a JSON object (yielding its fields) or the literal `null` (which leaves the
pre-allocated map empty and reports no error); every other document, and
malformed input, is an unmarshal error. -/
def unmarshalMap : Raw → Option JsonObj
  | .json (.obj fields) => some fields
  | .json .null => some []
  | _ => none

/-- Model of `ResourceSpec` (api/v1/resourcecreator_types.go): one child-resource
descriptor. -/
structure ResourceSpec where
  group : String
  version : String
  kind : String
  name : String
  spec : Raw

/-- Model of `ResourceCreatorSpec`: the desired-state list. -/
structure ResourceCreatorSpec where
  resources : List ResourceSpec

/-- Model of `ResourceCreatorStatus` (api/v1/resourcecreator_types.go).  `metav1.Time`
is modelled as an integer timestamp. -/
structure ResourceCreatorStatus where
  resource : ResourceSpec
  status : String
  lastUpdateTime : Int
  message : String

/-- The zero value of `ResourceCreatorStatus`. -/
def emptyStatus : ResourceCreatorStatus :=
  ⟨⟨"", "", "", "", .malformed ""⟩, "", 0, ""⟩

/-- Model of `ResourceCreator`: the parent record.  `nspace` stands for the Go field
`Namespace` (a reserved word in Lean). -/
structure ResourceCreator where
  name : String
  nspace : String
  uid : String
  spec : ResourceCreatorSpec
  status : ResourceCreatorStatus

/-- The parent type's group, from the kubebuilder group markers
(`groups=creator.m3.io`) in the controller file; `groupversion_info.go`
itself is not part of the sources. -/
def creatorGroup : String := "creator.m3.io"

/-- The parent type's version. -/
def creatorVersion : String := "v1"

/-- Model of `metav1.NewControllerRef(owner, gvk)`: an owner reference with
`Controller` and `BlockOwnerDeletion` both set to true. -/
def newControllerRef (owner : ResourceCreator) (group version kind : String) : OwnerReference :=
  ⟨apiVersionOf group version, kind, owner.name, owner.uid, true, true⟩


/-- The key a child object is addressed by: its GroupVersionKind plus the
`client.ObjectKey` (namespace, name) used at controller line 108. -/
structure Key where
  group : String
  version : String
  kind : String
  nspace : String
  name : String
deriving DecidableEq

/-- The key of the child described by a descriptor, in the request's
namespace. -/
def keyOf (rs : ResourceSpec) (ns : String) : Key :=
  ⟨rs.group, rs.version, rs.kind, ns, rs.name⟩

/-- The child objects currently in the cluster, as an association list. -/
abbrev ChildStore := List (Key × Unstructured)

/-- Model of `client.Get` on the child store: the first binding of the key. -/
def storeGet : ChildStore → Key → Option Unstructured
  | [], _ => none
  | (k, u) :: rest, key => if k = key then some u else storeGet rest key

/-- Model of `client.Create`/`client.Update` on the child store: replace the first
binding of the key, or append a new one. -/
def storePut : ChildStore → Key → Unstructured → ChildStore
  | [], key, u => [(key, u)]
  | (k, w) :: rest, key, u =>
      if k = key then (key, u) :: rest else (k, w) :: storePut rest key u

/-- Model of `ctrl.Request`: the parent identity handed to `Reconcile`. -/
structure Request where
  name : String
  nspace : String
deriving DecidableEq

/-- Outcome of the parent fetch at controller line 60: the record, a NotFound
error, or any other error. -/
inductive ParentFetch where
  | found (p : ResourceCreator)
  | notFound
  | fetchError

/-- The cluster environment a single `Reconcile` call runs against: the
parent-fetch outcome plus injectable child get/create/update errors (the
error paths the controller checks at lines 109, 117 and 124).  A `true` at a
key makes the corresponding call fail with a non-NotFound error. -/
structure Env where
  parentFetch : ParentFetch
  childGetError : Key → Bool
  createError : Key → Bool
  updateError : Key → Bool

/-- The errors `Reconcile` can return (the non-nil `error` results). -/
inductive RErr where
  | parentFetch
  | unmarshal (resource : String)
  | childFetch (resource : String)
  | createFail (resource : String)
  | updateFail (resource : String)

/-- One mutating client call issued by the controller.  `deleteChild` and
`writeParentStatus` exist so that "never deletes" and "never writes the
parent" are statable; the embedded `Reconcile` below issues no such calls
because the source contains no corresponding client call. -/
inductive Op where
  | createChild (k : Key) (u : Unstructured)
  | updateChild (k : Key) (u : Unstructured)
  | deleteChild (k : Key)
  | writeParentStatus (st : ResourceCreatorStatus)

/-- Result of a `Reconcile` call: the returned error (`none` = nil error,
success — the accompanying `ctrl.Result` is always the zero value in the
source and is omitted), the final child store, and the trace of mutating
client calls. -/
structure ROut where
  res : Option RErr
  store : ChildStore
  trace : List Op

/-- Controller lines 71–106: build the child object for one descriptor.
The order is the source's: content first (`SetUnstructuredContent` replaces
the whole map), then GVK, name, namespace, owner references. -/
def materialize (rs : ResourceSpec) (ns : String) (parent : ResourceCreator)
    (internalSpec : JsonObj) : Unstructured :=
  let resource : Unstructured := ⟨[]⟩
  let resource := resource.setUnstructuredContent [("spec", .obj internalSpec)]
  let resource := resource.setGroupVersionKind rs.group rs.version rs.kind
  let resource := resource.setName rs.name
  let resource := resource.setNamespace ns
  resource.setOwnerReferences
    [newControllerRef parent creatorGroup creatorVersion "ResourceCreator"]

/-- Controller lines 68–130, one loop iteration: unmarshal the payload,
materialize the child, fetch it, then create or update.  The fetch at line
108 decodes the stored object into the same `resource` variable, replacing
the freshly materialized content; the update branch therefore writes back
the fetched object. -/
def applyOne (env : Env) (req : Request) (parent : ResourceCreator)
    (store : ChildStore) (rs : ResourceSpec) : Except RErr (ChildStore × Op) :=
  match unmarshalMap rs.spec with
  | none => .error (.unmarshal rs.name)
  | some internalSpec =>
    let resource := materialize rs req.nspace parent internalSpec
    let k := keyOf rs req.nspace
    if env.childGetError k then .error (.childFetch rs.name)
    else
      match storeGet store k with
      | none =>
          let resource := resource.setResourceVersion ""
          if env.createError k then .error (.createFail rs.name)
          else .ok (storePut store k resource, .createChild k resource)
      | some fetched =>
          if env.updateError k then .error (.updateFail rs.name)
          else .ok (storePut store k fetched, .updateChild k fetched)

/-- The `for _, resourceSpec := range resourceCreator.Spec.Resources` loop:
descriptors in order, aborting the cycle on the first error. -/
def reconcileLoop (env : Env) (req : Request) (parent : ResourceCreator) :
    List ResourceSpec → ChildStore → List Op → ROut
  | [], store, trace => ⟨none, store, trace⟩
  | rs :: rest, store, trace =>
      match applyOne env req parent store rs with
      | .error e => ⟨some e, store, trace⟩
      | .ok (store2, op) => reconcileLoop env req parent rest store2 (trace ++ [op])

/-- Controller lines 56–133: `Reconcile`.  A NotFound on the parent fetch is
swallowed by `client.IgnoreNotFound` (success, nothing done); any other
fetch error is returned; otherwise each descriptor is applied in order. -/
def reconcile (env : Env) (req : Request) (store : ChildStore) : ROut :=
  match env.parentFetch with
  | .fetchError => ⟨some .parentFetch, store, []⟩
  | .notFound => ⟨none, store, []⟩
  | .found parent => reconcileLoop env req parent parent.spec.resources store []

/-- What `dynamicHandler` reads off the changed `client.Object`: its
namespace and its owner references. -/
structure ChildObject where
  nspace : String
  ownerReferences : List OwnerReference

/-- Model of `metav1.GetControllerOf`: the first owner reference flagged
`controller=true`, if any. -/
def getControllerOf (refs : List OwnerReference) : Option OwnerReference :=
  refs.find? (fun r => r.controller)

/-- Controller lines 139–153: the event-routing function registered for every
watched child type.  If the changed object has a controlling owner reference
of kind `ResourceCreator`, enqueue one request for (owner name, object's own
namespace); otherwise enqueue nothing. -/
def dynamicHandler (obj : ChildObject) : List Request :=
  match getControllerOf obj.ownerReferences with
  | some ownerRef =>
      if ownerRef.kind = "ResourceCreator" then
        [⟨ownerRef.name, obj.nspace⟩]
      else []
  | none => []

/-- An environment whose store injects no errors. -/
def cleanEnv (pf : ParentFetch) : Env :=
  ⟨pf, fun _ => false, fun _ => false, fun _ => false⟩

/-- The spec's §8 scenario descriptor: an apps/v1 Deployment named web with
payload replicas = n. -/
def demoDescriptor (n : Int) : ResourceSpec :=
  ⟨"apps", "v1", "Deployment", "web", .json (.obj [("replicas", .num n)])⟩

/-- The spec's §8 scenario parent record. -/
def demoParent (n : Int) : ResourceCreator :=
  ⟨"demo", "default", "uid-1", ⟨[demoDescriptor n]⟩, emptyStatus⟩

/-- The request for the scenario parent. -/
def demoReq : Request := ⟨"demo", "default"⟩

/-- A parent record whose single descriptor has an unparsable payload. -/
def badParent : ResourceCreator :=
  ⟨"demo", "default", "uid-1",
   ⟨[⟨"apps", "v1", "Deployment", "web", .malformed "oops"⟩]⟩, emptyStatus⟩

/-- First scenario reconciliation: replicas = 2 against an empty cluster. -/
def run2 : ROut := reconcile (cleanEnv (.found (demoParent 2))) demoReq []

/-- Second scenario reconciliation: the author changed the payload to
replicas = 3; the cluster holds the child from the first run. -/
def run3 : ROut := reconcile (cleanEnv (.found (demoParent 3))) demoReq run2.store

/-- The child object created or updated by the child materializer for one
descriptor (`setResourceVersion ""` happens before every create, line 115). -/
def newChild (req : Request) (parent : ResourceCreator) (rs : ResourceSpec) : Unstructured :=
  (materialize rs req.nspace parent ((unmarshalMap rs.spec).getD [])).setResourceVersion ""

/-- Predicate: the operation is addressed at the child with key k. -/
def opTargets (op : Op) (k : Key) : Prop :=
  match op with
  | .createChild k2 _ => k2 = k
  | .updateChild k2 _ => k2 = k
  | .deleteChild k2 => k2 = k
  | .writeParentStatus _ => False

/-- A first changed-child example for the ownership router: controlling owner
of kind ResourceCreator. -/
def routedChild : ChildObject :=
  ⟨"default", [⟨"creator.m3.io/v1", "ResourceCreator", "demo", "uid-1", true, true⟩]⟩

/-- A changed child whose controlling owner is of a different kind. -/
def foreignChild : ChildObject :=
  ⟨"default", [⟨"apps/v1", "Deployment", "demo", "uid-1", true, true⟩]⟩

/-- A changed child that names a ResourceCreator only in a non-controlling
owner reference. -/
def nonControllerChild : ChildObject :=
  ⟨"default", [⟨"other.group/v9", "ResourceCreator", "demo", "uid-1", false, true⟩]⟩

/-- The first mutating operation of the first scenario run (the create of the
web Deployment child). -/
def demoOp : Op := run2.trace.headD (Op.deleteChild ⟨"", "", "", "", ""⟩)

/-- A parent whose second descriptor has an unparsable payload: one good
descriptor before it, one good descriptor after it. -/
def mixedParent : ResourceCreator :=
  ⟨"demo", "default", "uid-1",
   ⟨[demoDescriptor 2,
     ⟨"apps", "v1", "Deployment", "web2", .malformed "oops"⟩,
     ⟨"", "v1", "Service", "svc", .json (.obj [])⟩]⟩, emptyStatus⟩

/-- The scenario parent after its author replaced the Deployment descriptor
with a Service descriptor (the old descriptor removed from desired state). -/
def svcParent : ResourceCreator :=
  ⟨"demo", "default", "uid-1",
   ⟨[⟨"", "v1", "Service", "svc", .json (.obj [])⟩]⟩, emptyStatus⟩

theorem storeGet_storePut_self :
    ∀ (s : ChildStore) (k : Key) (u : Unstructured),
      storeGet (storePut s k u) k = some u
  | [], k, u => by simp [storePut, storeGet]
  | (k1, w) :: rest, k, u => by
      by_cases h : k1 = k
      · simp [storePut, storeGet, h]
      · simp [storePut, storeGet, h, storeGet_storePut_self rest k u]

theorem storeGet_storePut_ne :
    ∀ (s : ChildStore) (k : Key) (u : Unstructured) (k2 : Key), k2 ≠ k →
      storeGet (storePut s k u) k2 = storeGet s k2
  | [], k, u, k2, h => by simp [storePut, storeGet, Ne.symm h]
  | (k1, w) :: rest, k, u, k2, h => by
      by_cases hk : k1 = k
      · simp [storePut, storeGet, hk, Ne.symm h]
      · by_cases hk2 : k1 = k2
        · simp [storePut, storeGet, hk, hk2, h]
        · simp [storePut, storeGet, hk, hk2, storeGet_storePut_ne rest k u k2 h]

theorem isSome_storeGet_storePut (s : ChildStore) (k : Key) (u : Unstructured)
    (k2 : Key) (h : (storeGet s k2).isSome) :
    (storeGet (storePut s k u) k2).isSome := by
  by_cases hk : k2 = k
  · rw [hk, storeGet_storePut_self]; rfl
  · rw [storeGet_storePut_ne s k u k2 hk]; exact h

theorem storePut_eq_of_get :
    ∀ (s : ChildStore) (k : Key) (u : Unstructured),
      storeGet s k = some u → storePut s k u = s
  | [], k, u, h => by simp [storeGet] at h
  | (k1, w) :: rest, k, u, h => by
      by_cases hk : k1 = k
      · simp [storeGet, hk] at h
        simp [storePut, hk, h]
      · simp [storeGet, hk] at h
        simp [storePut, hk, storePut_eq_of_get rest k u h]

theorem storePut_eq_append :
    ∀ (s : ChildStore) (k : Key) (u : Unstructured),
      storeGet s k = none → storePut s k u = s ++ [(k, u)]
  | [], k, u, _ => by simp [storePut]
  | (k1, w) :: rest, k, u, h => by
      by_cases hk : k1 = k
      · simp [storeGet, hk] at h
      · simp [storeGet, hk] at h
        simp [storePut, hk, storePut_eq_append rest k u h]

theorem applyOne_eq_unmarshal_none (env : Env) (req : Request)
    (parent : ResourceCreator) (store : ChildStore) (rs : ResourceSpec)
    (hm : unmarshalMap rs.spec = none) :
    applyOne env req parent store rs = .error (.unmarshal rs.name) := by
  simp [applyOne, hm]

theorem applyOne_eq_childFetch (env : Env) (req : Request)
    (parent : ResourceCreator) (store : ChildStore) (rs : ResourceSpec) (m : JsonObj)
    (hm : unmarshalMap rs.spec = some m)
    (hge : env.childGetError (keyOf rs req.nspace) = true) :
    applyOne env req parent store rs = .error (.childFetch rs.name) := by
  simp [applyOne, hm, hge]

theorem applyOne_eq_create (env : Env) (req : Request)
    (parent : ResourceCreator) (store : ChildStore) (rs : ResourceSpec) (m : JsonObj)
    (hm : unmarshalMap rs.spec = some m)
    (hge : env.childGetError (keyOf rs req.nspace) = false)
    (hsg : storeGet store (keyOf rs req.nspace) = none)
    (hce : env.createError (keyOf rs req.nspace) = false) :
    applyOne env req parent store rs =
      .ok (storePut store (keyOf rs req.nspace)
             ((materialize rs req.nspace parent m).setResourceVersion ""),
           .createChild (keyOf rs req.nspace)
             ((materialize rs req.nspace parent m).setResourceVersion "")) := by
  simp [applyOne, hm, hge, hsg, hce]

theorem applyOne_eq_update (env : Env) (req : Request)
    (parent : ResourceCreator) (store : ChildStore) (rs : ResourceSpec) (m : JsonObj)
    (fetched : Unstructured)
    (hm : unmarshalMap rs.spec = some m)
    (hge : env.childGetError (keyOf rs req.nspace) = false)
    (hsg : storeGet store (keyOf rs req.nspace) = some fetched)
    (hue : env.updateError (keyOf rs req.nspace) = false) :
    applyOne env req parent store rs =
      .ok (storePut store (keyOf rs req.nspace) fetched,
           .updateChild (keyOf rs req.nspace) fetched) := by
  simp [applyOne, hm, hge, hsg, hue]

theorem applyOne_ok_shape (env : Env) (req : Request)
    (parent : ResourceCreator) (store : ChildStore) (rs : ResourceSpec)
    (store2 : ChildStore) (op : Op)
    (h : applyOne env req parent store rs = .ok (store2, op)) :
    ∃ u, store2 = storePut store (keyOf rs req.nspace) u ∧
      (op = Op.createChild (keyOf rs req.nspace) u ∨
       op = Op.updateChild (keyOf rs req.nspace) u) := by
  rcases hm : unmarshalMap rs.spec with _ | m
  · rw [applyOne_eq_unmarshal_none env req parent store rs hm] at h
    exact absurd h (by simp)
  · cases hge : env.childGetError (keyOf rs req.nspace) with
    | true =>
        rw [applyOne_eq_childFetch env req parent store rs m hm hge] at h
        exact absurd h (by simp)
    | false =>
        rcases hsg : storeGet store (keyOf rs req.nspace) with _ | fetched
        · cases hce : env.createError (keyOf rs req.nspace) with
          | true => simp [applyOne, hm, hge, hsg, hce] at h
          | false =>
              rw [applyOne_eq_create env req parent store rs m hm hge hsg hce] at h
              simp only [Except.ok.injEq, Prod.mk.injEq] at h
              exact ⟨_, h.1.symm, Or.inl h.2.symm⟩
        · cases hue : env.updateError (keyOf rs req.nspace) with
          | true => simp [applyOne, hm, hge, hsg, hue] at h
          | false =>
              rw [applyOne_eq_update env req parent store rs m fetched hm hge hsg hue] at h
              simp only [Except.ok.injEq, Prod.mk.injEq] at h
              exact ⟨fetched, h.1.symm, Or.inr h.2.symm⟩

theorem reconcileLoop_trace_mem (env : Env) (req : Request) (parent : ResourceCreator) :
    ∀ (ds : List ResourceSpec) (store : ChildStore) (trace : List Op),
      ∀ op ∈ (reconcileLoop env req parent ds store trace).trace,
        op ∈ trace ∨ ∃ rs ∈ ds, ∃ u,
          op = Op.createChild (keyOf rs req.nspace) u ∨
          op = Op.updateChild (keyOf rs req.nspace) u
  | [], store, trace => by
      intro op hop
      exact Or.inl hop
  | rs :: rest, store, trace => by
      intro op hop
      rcases happ : applyOne env req parent store rs with e | p
      · rw [reconcileLoop, happ] at hop
        exact Or.inl hop
      · rcases p with ⟨store2, op2⟩
        rw [reconcileLoop, happ] at hop
        rcases reconcileLoop_trace_mem env req parent rest store2 (trace ++ [op2]) op hop with
          hmem | ⟨rs2, hrs2, u, hu⟩
        · rcases List.mem_append.mp hmem with h1 | h2
          · exact Or.inl h1
          · rcases applyOne_ok_shape env req parent store rs store2 op2 happ with
              ⟨u, _, hop2⟩
            have : op = op2 := List.mem_singleton.mp h2
            exact Or.inr ⟨rs, List.mem_cons_self rs rest, u, this ▸ hop2⟩
        · exact Or.inr ⟨rs2, List.mem_cons_of_mem rs hrs2, u, hu⟩

theorem reconcileLoop_mono (env : Env) (req : Request) (parent : ResourceCreator) :
    ∀ (ds : List ResourceSpec) (store : ChildStore) (trace : List Op) (k : Key),
      (storeGet store k).isSome →
      (storeGet (reconcileLoop env req parent ds store trace).store k).isSome
  | [], store, trace, k => by
      intro h
      exact h
  | rs :: rest, store, trace, k => by
      intro h
      rcases happ : applyOne env req parent store rs with e | p
      · rw [reconcileLoop, happ]
        exact h
      · rcases p with ⟨store2, op2⟩
        rw [reconcileLoop, happ]
        rcases applyOne_ok_shape env req parent store rs store2 op2 happ with ⟨u, hst, _⟩
        refine reconcileLoop_mono env req parent rest store2 (trace ++ [op2]) k ?_
        rw [hst]
        exact isSome_storeGet_storePut store (keyOf rs req.nspace) u k h

theorem reconcileLoop_clean (env : Env) (req : Request) (parent : ResourceCreator)
    (hg : ∀ k, env.childGetError k = false)
    (hc : ∀ k, env.createError k = false)
    (hu : ∀ k, env.updateError k = false) :
    ∀ (ds : List ResourceSpec) (store : ChildStore) (trace : List Op),
      (∀ d ∈ ds, (unmarshalMap d.spec).isSome) →
      (reconcileLoop env req parent ds store trace).res = none ∧
      ∀ d ∈ ds, (storeGet (reconcileLoop env req parent ds store trace).store
        (keyOf d req.nspace)).isSome
  | [], store, trace => by
      intro _
      exact ⟨rfl, by intro d hd; cases hd⟩
  | rs :: rest, store, trace => by
      intro hv
      rcases Option.isSome_iff_exists.mp (hv rs (List.mem_cons_self rs rest)) with ⟨m, hm⟩
      have hvrest : ∀ d ∈ rest, (unmarshalMap d.spec).isSome :=
        fun d hd => hv d (List.mem_cons_of_mem rs hd)
      rcases hsg : storeGet store (keyOf rs req.nspace) with _ | fetched
      · have happ := applyOne_eq_create env req parent store rs m hm
          (hg (keyOf rs req.nspace)) hsg (hc (keyOf rs req.nspace))
        rw [reconcileLoop, happ]
        set c := (materialize rs req.nspace parent m).setResourceVersion ""
        have ih := reconcileLoop_clean env req parent hg hc hu rest
          (storePut store (keyOf rs req.nspace) c)
          (trace ++ [Op.createChild (keyOf rs req.nspace) c]) hvrest
        refine ⟨ih.1, ?_⟩
        intro d hd
        rcases List.mem_cons.mp hd with hdr | hdr
        · subst hdr
          refine reconcileLoop_mono env req parent rest _ _ _ ?_
          rw [storeGet_storePut_self]
          rfl
        · exact ih.2 d hdr
      · have happ := applyOne_eq_update env req parent store rs m fetched hm
          (hg (keyOf rs req.nspace)) hsg (hu (keyOf rs req.nspace))
        rw [reconcileLoop, happ]
        have ih := reconcileLoop_clean env req parent hg hc hu rest
          (storePut store (keyOf rs req.nspace) fetched)
          (trace ++ [Op.updateChild (keyOf rs req.nspace) fetched]) hvrest
        refine ⟨ih.1, ?_⟩
        intro d hd
        rcases List.mem_cons.mp hd with hdr | hdr
        · subst hdr
          refine reconcileLoop_mono env req parent rest _ _ _ ?_
          rw [storeGet_storePut_self]
          rfl
        · exact ih.2 d hdr

theorem reconcileLoop_stable (env : Env) (req : Request) (parent : ResourceCreator)
    (hg : ∀ k, env.childGetError k = false)
    (hu : ∀ k, env.updateError k = false) :
    ∀ (ds : List ResourceSpec) (store : ChildStore) (trace : List Op),
      (∀ d ∈ ds, (unmarshalMap d.spec).isSome) →
      (∀ d ∈ ds, (storeGet store (keyOf d req.nspace)).isSome) →
      (reconcileLoop env req parent ds store trace).store = store ∧
      (reconcileLoop env req parent ds store trace).res = none
  | [], store, trace => by
      intro _ _
      exact ⟨rfl, rfl⟩
  | rs :: rest, store, trace => by
      intro hv hpres
      rcases Option.isSome_iff_exists.mp (hv rs (List.mem_cons_self rs rest)) with ⟨m, hm⟩
      rcases Option.isSome_iff_exists.mp (hpres rs (List.mem_cons_self rs rest)) with
        ⟨fetched, hsg⟩
      have happ := applyOne_eq_update env req parent store rs m fetched hm
        (hg (keyOf rs req.nspace)) hsg (hu (keyOf rs req.nspace))
      rw [reconcileLoop, happ, storePut_eq_of_get store (keyOf rs req.nspace) fetched hsg]
      exact reconcileLoop_stable env req parent hg hu rest store
        (trace ++ [Op.updateChild (keyOf rs req.nspace) fetched])
        (fun d hd => hv d (List.mem_cons_of_mem rs hd))
        (fun d hd => hpres d (List.mem_cons_of_mem rs hd))

theorem reconcileLoop_fresh (env : Env) (req : Request) (parent : ResourceCreator)
    (hg : ∀ k, env.childGetError k = false)
    (hc : ∀ k, env.createError k = false) :
    ∀ (ds : List ResourceSpec) (store : ChildStore) (trace : List Op),
      (∀ d ∈ ds, (unmarshalMap d.spec).isSome) →
      (∀ d ∈ ds, storeGet store (keyOf d req.nspace) = none) →
      (ds.map fun d => keyOf d req.nspace).Nodup →
      reconcileLoop env req parent ds store trace =
        ⟨none,
         store ++ ds.map (fun d => (keyOf d req.nspace, newChild req parent d)),
         trace ++ ds.map (fun d => Op.createChild (keyOf d req.nspace) (newChild req parent d))⟩
  | [], store, trace => by
      intro _ _ _
      simp [reconcileLoop]
  | rs :: rest, store, trace => by
      intro hv habs hnd
      rcases Option.isSome_iff_exists.mp (hv rs (List.mem_cons_self rs rest)) with ⟨m, hm⟩
      have hsg := habs rs (List.mem_cons_self rs rest)
      have happ := applyOne_eq_create env req parent store rs m hm
        (hg (keyOf rs req.nspace)) hsg (hc (keyOf rs req.nspace))
      have hnc : (materialize rs req.nspace parent m).setResourceVersion "" =
          newChild req parent rs := by
        rw [newChild, hm]
        rfl
      have happ2 : applyOne env req parent store rs =
          .ok (store ++ [(keyOf rs req.nspace, newChild req parent rs)],
               .createChild (keyOf rs req.nspace) (newChild req parent rs)) := by
        rw [happ, hnc,
          storePut_eq_append store (keyOf rs req.nspace) (newChild req parent rs) hsg]
      rw [reconcileLoop, happ2]
      have hnotmem := (List.nodup_cons.mp hnd).1
      have hrest := (List.nodup_cons.mp hnd).2
      have habs2 : ∀ d ∈ rest,
          storeGet (store ++ [(keyOf rs req.nspace, newChild req parent rs)])
            (keyOf d req.nspace) = none := by
        intro d hd
        have hne : keyOf d req.nspace ≠ keyOf rs req.nspace := by
          intro heq
          have hmem : keyOf d req.nspace ∈ List.map (fun x => keyOf x req.nspace) rest :=
            List.mem_map_of_mem (fun x => keyOf x req.nspace) hd
          rw [heq] at hmem
          exact hnotmem hmem
        rw [← storePut_eq_append store (keyOf rs req.nspace) (newChild req parent rs) hsg,
          storeGet_storePut_ne store (keyOf rs req.nspace) (newChild req parent rs)
            (keyOf d req.nspace) hne]
        exact habs d (List.mem_cons_of_mem rs hd)
      show reconcileLoop env req parent rest
        (store ++ [(keyOf rs req.nspace, newChild req parent rs)])
        (trace ++ [Op.createChild (keyOf rs req.nspace) (newChild req parent rs)]) = _
      rw [reconcileLoop_fresh env req parent hg hc rest
        (store ++ [(keyOf rs req.nspace, newChild req parent rs)])
        (trace ++ [Op.createChild (keyOf rs req.nspace) (newChild req parent rs)])
        (fun d hd => hv d (List.mem_cons_of_mem rs hd)) habs2 hrest]
      simp [List.append_assoc]

theorem storeGet_map_of_nodup (req : Request) (parent : ResourceCreator) :
    ∀ (ds : List ResourceSpec),
      (ds.map fun d => keyOf d req.nspace).Nodup →
      ∀ d ∈ ds,
        storeGet (ds.map fun x => (keyOf x req.nspace, newChild req parent x))
          (keyOf d req.nspace) = some (newChild req parent d)
  | [], _, d, hd => by cases hd
  | rs :: rest, hnd, d, hd => by
      rcases List.mem_cons.mp hd with heq | hdr
      · subst heq
        simp [storeGet]
      · have hne : ¬(keyOf rs req.nspace = keyOf d req.nspace) := by
          intro heq
          have hmem : keyOf d req.nspace ∈ List.map (fun x => keyOf x req.nspace) rest :=
            List.mem_map_of_mem (fun x => keyOf x req.nspace) hdr
          rw [← heq] at hmem
          exact (List.nodup_cons.mp hnd).1 hmem
        rw [List.map_cons]
        show storeGet ((keyOf rs req.nspace, newChild req parent rs) ::
          List.map (fun x => (keyOf x req.nspace, newChild req parent x)) rest)
          (keyOf d req.nspace) = _
        rw [storeGet, if_neg hne]
        exact storeGet_map_of_nodup req parent rest (List.nodup_cons.mp hnd).2 d hdr

theorem reconcileLoop_failfast (env : Env) (req : Request) (parent : ResourceCreator) :
    ∀ (ds1 : List ResourceSpec) (d : ResourceSpec) (ds2 : List ResourceSpec)
      (store : ChildStore) (trace : List Op),
      (∀ x ∈ ds1, (unmarshalMap x.spec).isSome) →
      unmarshalMap d.spec = none →
      (∃ e, (reconcileLoop env req parent (ds1 ++ d :: ds2) store trace).res = some e) ∧
      ∀ op ∈ (reconcileLoop env req parent (ds1 ++ d :: ds2) store trace).trace,
        op ∈ trace ∨ ∃ x ∈ ds1, opTargets op (keyOf x req.nspace)
  | [], d, ds2, store, trace => by
      intro _ hbad
      have happ := applyOne_eq_unmarshal_none env req parent store d hbad
      rw [List.nil_append, reconcileLoop, happ]
      exact ⟨⟨RErr.unmarshal d.name, rfl⟩, fun op hop => Or.inl hop⟩
  | rs :: ds1, d, ds2, store, trace => by
      intro hv hbad
      rw [List.cons_append]
      rcases happ : applyOne env req parent store rs with e | p
      · rw [reconcileLoop, happ]
        exact ⟨⟨e, rfl⟩, fun op hop => Or.inl hop⟩
      · rcases p with ⟨store2, op2⟩
        rw [reconcileLoop, happ]
        have ih := reconcileLoop_failfast env req parent ds1 d ds2 store2 (trace ++ [op2])
          (fun x hx => hv x (List.mem_cons_of_mem rs hx)) hbad
        refine ⟨ih.1, ?_⟩
        intro op hop
        rcases ih.2 op hop with hmem | ⟨x, hx, ht⟩
        · rcases List.mem_append.mp hmem with h1 | h2
          · exact Or.inl h1
          · have heq : op = op2 := List.mem_singleton.mp h2
            rcases applyOne_ok_shape env req parent store rs store2 op2 happ with
              ⟨u, _, hop2⟩
            refine Or.inr ⟨rs, List.mem_cons_self rs ds1, ?_⟩
            rcases hop2 with h | h
            · rw [heq, h]
              exact rfl
            · rw [heq, h]
              exact rfl
        · exact Or.inr ⟨x, List.mem_cons_of_mem rs hx, ht⟩

theorem reconcile_cases (env : Env) (req : Request) (store : ChildStore) :
    reconcile env req store = ⟨some .parentFetch, store, []⟩ ∨
    reconcile env req store = ⟨none, store, []⟩ ∨
    ∃ parent, env.parentFetch = .found parent ∧
      reconcile env req store =
        reconcileLoop env req parent parent.spec.resources store [] := by
  cases hp : env.parentFetch with
  | fetchError => exact Or.inl (by simp only [reconcile, hp])
  | notFound => exact Or.inr (Or.inl (by simp only [reconcile, hp]))
  | found parent => exact Or.inr (Or.inr ⟨parent, rfl, by simp only [reconcile, hp]⟩)

/-- C1: for every parent record whose desired-state list has N descriptors,
all with payloads that deserialize to a mapping (and addressing N distinct
children), a Reconcile call against an empty cluster returns success and
leaves exactly N child records in the store; each child's type identity
(apiVersion/kind), name and namespace come from its descriptor and the
request, its content holds exactly the deserialized payload under "spec",
and it carries an ownership link to the parent. -/
theorem C1_success_leaves_matching_children
    (env : Env) (req : Request) (parent : ResourceCreator)
    (hp : env.parentFetch = .found parent)
    (hg : ∀ k, env.childGetError k = false)
    (hc : ∀ k, env.createError k = false)
    (hv : ∀ d ∈ parent.spec.resources, (unmarshalMap d.spec).isSome)
    (hnd : (parent.spec.resources.map fun d => keyOf d req.nspace).Nodup) :
    (reconcile env req []).res = none ∧
    (reconcile env req []).store.length = parent.spec.resources.length ∧
    ∀ d ∈ parent.spec.resources,
      storeGet (reconcile env req []).store (keyOf d req.nspace) =
        some (newChild req parent d) ∧
      (newChild req parent d).getApiVersion =
        some (.str (apiVersionOf d.group d.version)) ∧
      (newChild req parent d).getKind = some (.str d.kind) ∧
      (newChild req parent d).getName = some (.str d.name) ∧
      (newChild req parent d).getNamespace = some (.str req.nspace) ∧
      objLookup (newChild req parent d).content "spec" =
        some (.obj ((unmarshalMap d.spec).getD [])) ∧
      (newChild req parent d).metaField "ownerReferences" =
        some (.arr [encodeOwnerReference
          (newControllerRef parent creatorGroup creatorVersion "ResourceCreator")]) := by
  have hrec : reconcile env req [] =
      reconcileLoop env req parent parent.spec.resources [] [] := by
    simp only [reconcile, hp]
  have hfresh := reconcileLoop_fresh env req parent hg hc parent.spec.resources [] []
    hv (fun _ _ => rfl) hnd
  refine ⟨by rw [hrec, hfresh], by rw [hrec, hfresh]; simp, ?_⟩
  intro d hd
  refine ⟨?_, rfl, rfl, rfl, rfl, rfl, rfl⟩
  rw [hrec, hfresh]
  show storeGet ([] ++ _) _ = _
  rw [List.nil_append]
  exact storeGet_map_of_nodup req parent parent.spec.resources hnd d hd

/-- Witness for C1 at the spec's §8 scenario input. -/
theorem C1_success_leaves_matching_children_witness :
    (reconcile (cleanEnv (.found (demoParent 2))) demoReq []).res = none ∧
    (reconcile (cleanEnv (.found (demoParent 2))) demoReq []).store.length = 1 :=
  have h := C1_success_leaves_matching_children (cleanEnv (.found (demoParent 2)))
    demoReq (demoParent 2) rfl (fun _ => rfl) (fun _ => rfl)
    (by
      intro d hd
      cases hd with
      | head => rfl
      | tail _ h2 => cases h2)
    (List.nodup_singleton _)
  ⟨h.1, h.2.1⟩

/-- C5: for every descriptor with a valid payload, the materialized child
record's untyped content is exactly the spec section plus apiVersion, kind
and metadata; its type identity comes from the descriptor's
group/version/kind, its name from the descriptor, its namespace from the
parent's namespace, and its ownership link points at the parent.  Because
the type identity is assigned after the whole-content assignment, both the
spec section and the apiVersion/kind keys are present in the result — the
spec-assignment step does not clobber the type identity. -/
theorem C5_materialize_exact_content
    (rs : ResourceSpec) (ns : String) (parent : ResourceCreator) (m : JsonObj) :
    (materialize rs ns parent m).content =
      [("spec", .obj m),
       ("apiVersion", .str (apiVersionOf rs.group rs.version)),
       ("kind", .str rs.kind),
       ("metadata", .obj
         [("name", .str rs.name), ("namespace", .str ns),
          ("ownerReferences", .arr [encodeOwnerReference
            (newControllerRef parent creatorGroup creatorVersion "ResourceCreator")])])] ∧
    objLookup (materialize rs ns parent m).content "spec" = some (.obj m) ∧
    (materialize rs ns parent m).getApiVersion =
      some (.str (apiVersionOf rs.group rs.version)) ∧
    (materialize rs ns parent m).getKind = some (.str rs.kind) ∧
    (materialize rs ns parent m).getName = some (.str rs.name) ∧
    (materialize rs ns parent m).getNamespace = some (.str ns) ∧
    (materialize rs ns parent m).metaField "ownerReferences" =
      some (.arr [encodeOwnerReference
        (newControllerRef parent creatorGroup creatorVersion "ResourceCreator")]) :=
  ⟨rfl, rfl, rfl, rfl, rfl, rfl, rfl⟩

/-- C2: evaluation of the code at the spec's §8 scenario.  After creating the
web Deployment child from payload replicas = 2, re-reconciling with the
payload changed to replicas = 3 returns success but leaves the store
unchanged: the child still holds replicas = 2, not the new payload.  The
fetch at controller line 108 decodes the stored object into the same
variable that held the freshly materialized content, so the update at line
123 writes back the fetched (stale) object. -/
theorem C2_reupdate_keeps_stale_payload :
    run2.res = none ∧ run3.res = none ∧ run3.store = run2.store ∧
    (storeGet run3.store (keyOf (demoDescriptor 3) "default")).map
      (fun u => objLookup u.content "spec") =
      some (some (.obj [("replicas", .num 2)])) :=
  ⟨rfl, rfl, rfl, rfl⟩

/-- C3 counterexample: a reconciliation attempt over a descriptor whose
payload fails to deserialize returns the unmarshal error with an empty
operation trace — no status summary is written to the parent record (no
`writeParentStatus` operation is ever issued), contradicting the claim that
the apply status, and in particular a payload-deserialize error, is
reported on the parent's status summary after every attempt. -/
theorem C3_counterexample_no_status_write :
    reconcile (cleanEnv (.found badParent)) demoReq [] =
      ⟨some (.unmarshal "web"), [], []⟩ :=
  rfl

/-- C3 amended: Reconcile writes no state back to the parent record at all —
every operation in its trace is a child create or a child update; in
particular it never writes the parent's status summary, and a
payload-deserialize error surfaces only as the returned cycle failure. -/
theorem C3_amended_reconcile_writes_only_children
    (env : Env) (req : Request) (store : ChildStore) :
    ∀ op ∈ (reconcile env req store).trace,
      (∃ k u, op = Op.createChild k u) ∨ (∃ k u, op = Op.updateChild k u) := by
  intro op hop
  rcases reconcile_cases env req store with hre | hre | ⟨parent, _, hre⟩
  · rw [hre] at hop
    cases hop
  · rw [hre] at hop
    cases hop
  · rw [hre] at hop
    rcases reconcileLoop_trace_mem env req parent parent.spec.resources store [] op hop with
      h | ⟨rs, _, u, h | h⟩
    · cases h
    · exact Or.inl ⟨keyOf rs req.nspace, u, h⟩
    · exact Or.inr ⟨keyOf rs req.nspace, u, h⟩

/-- Witness for the amended C3: the create operation of the scenario run is
a child write. -/
theorem C3_amended_reconcile_writes_only_children_witness :
    (∃ k u, demoOp = Op.createChild k u) ∨ (∃ k u, demoOp = Op.updateChild k u) :=
  C3_amended_reconcile_writes_only_children (cleanEnv (.found (demoParent 2))) demoReq []
    demoOp (show demoOp ∈ run2.trace from List.mem_cons_self demoOp [])

/-- C4: if descriptor i is the first whose payload fails to deserialize to a
mapping, Reconcile returns an error for the whole cycle and every operation
it performed targets a child of a descriptor strictly before i — nothing is
created or updated for descriptor i or any later descriptor. -/
theorem C4_failfast_on_bad_payload
    (env : Env) (req : Request) (parent : ResourceCreator)
    (ds1 : List ResourceSpec) (d : ResourceSpec) (ds2 : List ResourceSpec)
    (store : ChildStore)
    (hp : env.parentFetch = .found parent)
    (hres : parent.spec.resources = ds1 ++ d :: ds2)
    (hv : ∀ x ∈ ds1, (unmarshalMap x.spec).isSome)
    (hbad : unmarshalMap d.spec = none) :
    (∃ e, (reconcile env req store).res = some e) ∧
    ∀ op ∈ (reconcile env req store).trace,
      ∃ x ∈ ds1, opTargets op (keyOf x req.nspace) := by
  have hrec : reconcile env req store =
      reconcileLoop env req parent parent.spec.resources store [] := by
    simp only [reconcile, hp]
  rw [hrec, hres]
  have h := reconcileLoop_failfast env req parent ds1 d ds2 store [] hv hbad
  refine ⟨h.1, ?_⟩
  intro op hop
  rcases h.2 op hop with hmem | hx
  · cases hmem
  · exact hx

/-- Witness for C4: a parent with a good descriptor, then a malformed one,
then another good one; the cycle fails and all operations target the first
descriptor's child only. -/
theorem C4_failfast_on_bad_payload_witness :
    (∃ e, (reconcile (cleanEnv (.found mixedParent)) demoReq []).res = some e) ∧
    ∀ op ∈ (reconcile (cleanEnv (.found mixedParent)) demoReq []).trace,
      ∃ x ∈ [demoDescriptor 2], opTargets op (keyOf x demoReq.nspace) :=
  C4_failfast_on_bad_payload (cleanEnv (.found mixedParent)) demoReq mixedParent
    [demoDescriptor 2]
    ⟨"apps", "v1", "Deployment", "web2", .malformed "oops"⟩
    [⟨"", "v1", "Service", "svc", .json (.obj [])⟩]
    [] rfl rfl
    (by
      intro x hx
      cases hx with
      | head => rfl
      | tail _ h2 => cases h2)
    rfl

/-- C6: when the parent record is absent (NotFound on the fetch), Reconcile
returns success, performs no operation and leaves the store untouched; when
the parent fetch fails for any other reason, Reconcile returns that failure,
again having performed no operation. -/
theorem C6_parent_absent_noop_or_error
    (env : Env) (req : Request) (store : ChildStore) :
    (env.parentFetch = .notFound → reconcile env req store = ⟨none, store, []⟩) ∧
    (env.parentFetch = .fetchError →
      reconcile env req store = ⟨some .parentFetch, store, []⟩) := by
  constructor
  · intro h
    simp only [reconcile, h]
  · intro h
    simp only [reconcile, h]

/-- Witness for C6, against the non-empty store left by the scenario run. -/
theorem C6_parent_absent_noop_or_error_witness :
    reconcile (cleanEnv .notFound) demoReq run2.store = ⟨none, run2.store, []⟩ ∧
    reconcile (cleanEnv .fetchError) demoReq run2.store =
      ⟨some .parentFetch, run2.store, []⟩ :=
  ⟨(C6_parent_absent_noop_or_error (cleanEnv .notFound) demoReq run2.store).1 rfl,
   (C6_parent_absent_noop_or_error (cleanEnv .fetchError) demoReq run2.store).2 rfl⟩

/-- C7: the event-routing function returns the parent identity — owner name
plus the child's own namespace — exactly when the child's controlling
ownership link references kind ResourceCreator; with no controlling link, or
a link of a different kind, it returns the empty request list (the function
is total, so this path raises no errors). -/
theorem C7_router_routes_on_owner_kind (obj : ChildObject) :
    (getControllerOf obj.ownerReferences = none → dynamicHandler obj = []) ∧
    ∀ ref, getControllerOf obj.ownerReferences = some ref →
      (ref.kind = "ResourceCreator" →
        dynamicHandler obj = [⟨ref.name, obj.nspace⟩]) ∧
      (ref.kind ≠ "ResourceCreator" → dynamicHandler obj = []) := by
  constructor
  · intro h
    simp only [dynamicHandler, h]
  · intro ref href
    constructor
    · intro hk
      simp only [dynamicHandler, href, if_pos hk]
    · intro hk
      simp only [dynamicHandler, href, if_neg hk]

/-- Witness for C7: a ResourceCreator-owned child is routed to its parent, a
Deployment-owned child is ignored. -/
theorem C7_router_routes_on_owner_kind_witness :
    dynamicHandler routedChild = [⟨"demo", "default"⟩] ∧
    dynamicHandler foreignChild = [] :=
  ⟨((C7_router_routes_on_owner_kind routedChild).2
      ⟨"creator.m3.io/v1", "ResourceCreator", "demo", "uid-1", true, true⟩ rfl).1 rfl,
   ((C7_router_routes_on_owner_kind foreignChild).2
      ⟨"apps/v1", "Deployment", "demo", "uid-1", true, true⟩ rfl).2 (by decide)⟩

/-- C8: Reconcile never issues a delete against the store — no operation in
any trace is a delete — and every child present before a Reconcile call is
still present after it; in particular a child whose descriptor was removed
from the desired-state list survives the next reconciliation. -/
theorem C8_never_deletes (env : Env) (req : Request) (store : ChildStore) :
    (∀ op ∈ (reconcile env req store).trace, ∀ k, op ≠ Op.deleteChild k) ∧
    ∀ k, (storeGet store k).isSome →
      (storeGet (reconcile env req store).store k).isSome := by
  constructor
  · intro op hop k
    rcases reconcile_cases env req store with hre | hre | ⟨parent, _, hre⟩
    · rw [hre] at hop
      cases hop
    · rw [hre] at hop
      cases hop
    · rw [hre] at hop
      rcases reconcileLoop_trace_mem env req parent parent.spec.resources store [] op hop with
        h | ⟨rs, _, u, h | h⟩
      · cases h
      · rw [h]
        intro hcon
        exact Op.noConfusion hcon
      · rw [h]
        intro hcon
        exact Op.noConfusion hcon
  · intro k hk
    rcases reconcile_cases env req store with hre | hre | ⟨parent, _, hre⟩
    · rw [hre]
      exact hk
    · rw [hre]
      exact hk
    · rw [hre]
      exact reconcileLoop_mono env req parent parent.spec.resources store [] k hk

/-- Witness for C8: after the scenario run created the web Deployment child,
reconciling a desired-state list from which that descriptor was removed (it
now lists only a Service) leaves the Deployment child in existence. -/
theorem C8_never_deletes_witness :
    (storeGet (reconcile (cleanEnv (.found svcParent)) demoReq run2.store).store
      (keyOf (demoDescriptor 2) "default")).isSome = true :=
  (C8_never_deletes (cleanEnv (.found svcParent)) demoReq run2.store).2
    (keyOf (demoDescriptor 2) "default") rfl

/-- C9: with unchanged desired state, valid payloads and a store that injects
no errors, two successive Reconcile calls both return success and the set of
child records after the second call equals the set after the first — the
second pass performs no-op updates and creates no duplicates. -/
theorem C9_reconcile_idempotent
    (env : Env) (req : Request) (parent : ResourceCreator) (store : ChildStore)
    (hp : env.parentFetch = .found parent)
    (hg : ∀ k, env.childGetError k = false)
    (hc : ∀ k, env.createError k = false)
    (hu : ∀ k, env.updateError k = false)
    (hv : ∀ d ∈ parent.spec.resources, (unmarshalMap d.spec).isSome) :
    (reconcile env req store).res = none ∧
    (reconcile env req (reconcile env req store).store).res = none ∧
    (reconcile env req (reconcile env req store).store).store =
      (reconcile env req store).store := by
  have hrec : ∀ s, reconcile env req s =
      reconcileLoop env req parent parent.spec.resources s [] := by
    intro s
    simp only [reconcile, hp]
  have h1 := reconcileLoop_clean env req parent hg hc hu parent.spec.resources store [] hv
  have h2 := reconcileLoop_stable env req parent hg hu parent.spec.resources
    (reconcileLoop env req parent parent.spec.resources store []).store [] hv h1.2
  rw [hrec store,
    hrec (reconcileLoop env req parent parent.spec.resources store []).store]
  exact ⟨h1.1, h2.2, h2.1⟩

/-- Witness for C9 at the scenario input. -/
theorem C9_reconcile_idempotent_witness :
    (reconcile (cleanEnv (.found (demoParent 2))) demoReq []).res = none ∧
    (reconcile (cleanEnv (.found (demoParent 2))) demoReq
      (reconcile (cleanEnv (.found (demoParent 2))) demoReq []).store).res = none ∧
    (reconcile (cleanEnv (.found (demoParent 2))) demoReq
      (reconcile (cleanEnv (.found (demoParent 2))) demoReq []).store).store =
      (reconcile (cleanEnv (.found (demoParent 2))) demoReq []).store :=
  C9_reconcile_idempotent (cleanEnv (.found (demoParent 2))) demoReq (demoParent 2) []
    rfl (fun _ => rfl) (fun _ => rfl) (fun _ => rfl)
    (by
      intro d hd
      cases hd with
      | head => rfl
      | tail _ h2 => cases h2)

/-- C10: the event-routing function inspects only the controlling owner
reference: if no owner reference is flagged controller, nothing is enqueued
even when a non-controller reference names a ResourceCreator; when the
controlling reference has kind ResourceCreator it enqueues exactly one
request, whatever the reference's apiVersion (API group/version are
ignored); and the returned request list never has more than one element. -/
theorem C10_router_controller_ref_only (obj : ChildObject) :
    ((∀ r ∈ obj.ownerReferences, r.controller = false) → dynamicHandler obj = []) ∧
    (∀ ref, getControllerOf obj.ownerReferences = some ref →
      ref.kind = "ResourceCreator" → dynamicHandler obj = [⟨ref.name, obj.nspace⟩]) ∧
    (dynamicHandler obj).length ≤ 1 := by
  refine ⟨?_, ?_, ?_⟩
  · intro h
    have hnone : getControllerOf obj.ownerReferences = none := by
      rw [getControllerOf, List.find?_eq_none]
      intro r hr
      simp [h r hr]
    simp only [dynamicHandler, hnone]
  · intro ref href hk
    simp only [dynamicHandler, href, if_pos hk]
  · rcases hctl : getControllerOf obj.ownerReferences with _ | ref
    · simp [dynamicHandler, hctl]
    · by_cases hk : ref.kind = "ResourceCreator"
      · simp [dynamicHandler, hctl, hk]
      · simp [dynamicHandler, hctl, hk]

/-- Witness for C10: a non-controller owner reference naming a
ResourceCreator enqueues nothing; a controlling one (here under an arbitrary
API group) enqueues exactly one request. -/
theorem C10_router_controller_ref_only_witness :
    dynamicHandler nonControllerChild = [] ∧
    dynamicHandler routedChild = [⟨"demo", "default"⟩] :=
  ⟨(C10_router_controller_ref_only nonControllerChild).1
      (by
        intro r hr
        cases hr with
        | head => rfl
        | tail _ h2 => cases h2),
   (C10_router_controller_ref_only routedChild).2.1
      ⟨"creator.m3.io/v1", "ResourceCreator", "demo", "uid-1", true, true⟩ rfl rfl⟩

end Creator
